import Mathlib

/-!
Shallow embedding of the ArXiv Paper Monitor core (src/main.py, src/storage.py,
src/config.py). Timestamps are modelled as `Nat`; the Python `dict` of papers is
an insertion-ordered association list; the Python `set` of seen identifiers is a
list extended only when the element is absent; the remote fetcher is an abstract
function returning `Except` (an exception raised by `ArXivClient.fetch_papers`
is the `.error` case).
-/

namespace ArxivMonitor

/-- Embedding of the `Paper` pydantic model from src/config.py. -/
structure Paper where
  id : String
  title : String
  abstract : String
  authors : List String
  categories : List String
  published : Nat
  updated : Nat
  arxiv_url : String
  pdf_url : String
  fetched_at : Nat
  is_new : Bool := true
deriving Repr, DecidableEq

/-- Embedding of the `CategoryConfig` pydantic model from src/config.py,
with its defaults `enabled = True` and `max_results = 50`. -/
structure CategoryConfig where
  category : String
  enabled : Bool := true
  max_results : Nat := 50
deriving Repr, DecidableEq

/-- Embedding of the `FetchStatus` pydantic model from src/config.py. -/
structure FetchStatus where
  last_fetch : Option Nat
  papers_found : Nat
  new_papers : Nat
  status : String
  message : String := ""
deriving Repr, DecidableEq

/-- Lookup in the insertion-ordered association list modelling the Python
`dict` of papers keyed by identifier. -/
def dictLookup : List (String × Paper) → String → Option Paper
  | [], _ => none
  | kv :: rest, k => if kv.1 = k then some kv.2 else dictLookup rest k

/-- Embedding of `existing_papers[paper.id] = paper`: overwrite in place when
the key is present (Python dicts keep insertion order), append otherwise. -/
def dictInsert : List (String × Paper) → String → Paper → List (String × Paper)
  | [], k, v => [(k, v)]
  | kv :: rest, k, v => if kv.1 = k then (k, v) :: rest else kv :: dictInsert rest k v

/-- Embedding of `seen_ids.add(paper.id)` on the Python set of seen ids. -/
def addSeen (s : List String) (x : String) : List String :=
  if x ∈ s then s else x :: s

/-- The four durable datasets owned by `DataStorage` (src/storage.py). `none`
for `config` or `status` models the corresponding JSON file not existing. -/
structure Storage where
  papers : List (String × Paper)
  seen_ids : List String
  config : Option (List CategoryConfig)
  status : Option FetchStatus
deriving Repr, DecidableEq

/-- Default category list returned by `DataStorage.load_config` when
`config.json` does not exist (src/storage.py lines 45-50); `max_results`
comes from the pydantic default 50. -/
def defaultConfig : List CategoryConfig :=
  [⟨"cs.CV", true, 50⟩, ⟨"cs.LG", true, 50⟩, ⟨"cs.AI", true, 50⟩]

/-- Embedding of `DataStorage.load_config` (src/storage.py). -/
def loadConfig (s : Storage) : List CategoryConfig :=
  s.config.getD defaultConfig

/-- Result of the merge loop shared by `periodic_fetch` and
`fetch_papers_now` in src/main.py. -/
structure MergeResult where
  new_count : Nat
  seen_ids : List String
  papers : List (String × Paper)
deriving Repr, DecidableEq

/-- Embedding of the merge loop of src/main.py (lines 35-43 and 152-161):
`for paper in all_papers: if paper.id not in seen_ids: paper.is_new = True;
new_count += 1; seen_ids.add(paper.id) else: paper.is_new = False;
existing_papers[paper.id] = paper`. -/
def mergePapers : List Paper → List String → List (String × Paper) → MergeResult
  | [], seen, existing => ⟨0, seen, existing⟩
  | p :: rest, seen, existing =>
    if p.id ∈ seen then
      mergePapers rest seen (dictInsert existing p.id { p with is_new := false })
    else
      let r := mergePapers rest (addSeen seen p.id)
        (dictInsert existing p.id { p with is_new := true })
      { r with new_count := r.new_count + 1 }

/-- Abstract record fetcher: `ArXivClient.fetch_papers(category, max_results)`;
`.error` models an exception raised by the fetch. -/
def Fetcher : Type := String → Nat → Except String (List Paper)

/-- Embedding of the candidate-collection loop (src/main.py lines 21-29 and
139-147): iterate the configuration in order, fetch each enabled category and
extend `all_papers`; an exception propagates out of the loop at once, so a
failure discards everything and aborts the remaining categories. -/
def collectPapers (f : Fetcher) : List CategoryConfig → Except String (List Paper)
  | [] => .ok []
  | c :: rest =>
    if c.enabled then
      match f c.category c.max_results with
      | .error e => .error e
      | .ok ps =>
        match collectPapers f rest with
        | .error e => .error e
        | .ok more => .ok (ps ++ more)
    else collectPapers f rest

/-- Trace of the categories for which the collection loop actually invokes the
fetcher, in order; the trace stops at the first category whose fetch raises
(the exception escapes the loop). -/
def fetchCalls (f : Fetcher) : List CategoryConfig → List String
  | [] => []
  | c :: rest =>
    if c.enabled then
      match f c.category c.max_results with
      | .error _ => [c.category]
      | .ok _ => c.category :: fetchCalls f rest
    else fetchCalls f rest

/-- The success `FetchStatus` built at the end of a cycle (src/main.py
lines 48-55 and 166-173). -/
def successStatus (now found newc : Nat) : FetchStatus :=
  ⟨some now, found, newc, "success",
   "Fetched " ++ toString found ++ " papers, " ++ toString newc ++ " new"⟩

/-- The error `FetchStatus` persisted by the scheduled path's `except` branch
(src/main.py lines 58-66). -/
def errorStatus (now : Nat) (msg : String) : FetchStatus :=
  ⟨some now, 0, 0, "error", msg⟩

/-- One iteration of the body of `periodic_fetch` (src/main.py, the scheduled
entry point), without the trailing sleep: collect, merge, persist papers, seen
ids and a success status; on any exception persist an error status only. -/
def periodicFetchBody (f : Fetcher) (now : Nat) (s : Storage) : Storage :=
  match collectPapers f (loadConfig s) with
  | .ok all_papers =>
    let r := mergePapers all_papers s.seen_ids s.papers
    { s with papers := r.papers, seen_ids := r.seen_ids,
             status := some (successStatus now all_papers.length r.new_count) }
  | .error e => { s with status := some (errorStatus now e) }

/-- Response body of the manual trigger endpoint (src/main.py lines 175-179). -/
structure FetchResponse where
  status : String
  papers_fetched : Nat
  new_papers : Nat
deriving Repr, DecidableEq

/-- Embedding of `fetch_papers_now` (src/main.py, the manual entry point):
returns the storage after the call together with the outcome; on an exception
the handler re-raises an `HTTPException` carrying the message (`.error`) and
writes nothing to the store. -/
def fetchPapersNow (f : Fetcher) (now : Nat) (s : Storage) :
    Storage × Except String FetchResponse :=
  match collectPapers f (loadConfig s) with
  | .ok all_papers =>
    let r := mergePapers all_papers s.seen_ids s.papers
    ({ s with papers := r.papers, seen_ids := r.seen_ids,
              status := some (successStatus now all_papers.length r.new_count) },
     .ok ⟨"success", all_papers.length, r.new_count⟩)
  | .error e => (s, .error e)

/-- Embedding of `get_papers` (src/main.py lines 126-132): all stored papers
sorted by `updated`, newest first (`sorted(..., reverse=True)` is a stable
sort, modelled by a stable merge sort on the reversed order). -/
def getPapers (s : Storage) : List Paper :=
  (s.papers.map Prod.snd).mergeSort (fun p q => decide (q.updated ≤ p.updated))

/-- Embedding of `mark_all_seen` (src/main.py lines 198-212): every stored
paper gets `is_new = False` and its identifier is added to the seen set. -/
def markAllSeen (s : Storage) : Storage :=
  { s with
    papers := s.papers.map (fun kv => (kv.1, { kv.2 with is_new := false })),
    seen_ids := s.papers.foldl (fun acc kv => addSeen acc kv.1) s.seen_ids }

/-- Embedding of `update_config` (src/main.py lines 233-237). -/
def updateConfig (s : Storage) (c : List CategoryConfig) : Storage :=
  { s with config := some c }

/-- Embedding of `clear_all_data` (src/main.py lines 240-258): empty paper
dict, empty seen set, status `cleared`. -/
def clearAllData (s : Storage) : Storage :=
  { s with papers := [], seen_ids := [],
           status := some ⟨none, 0, 0, "cleared", "All data cleared"⟩ }

/-- Embedding of `get_status` (src/main.py lines 186-196): the stored status,
or the `no_data` placeholder when none has been persisted. -/
def getStatus (s : Storage) : FetchStatus :=
  s.status.getD ⟨none, 0, 0, "no_data", "No fetches performed yet"⟩

/-! Helper lemmas about the dictionary, the seen set and the merge loop. -/

theorem dictLookup_dictInsert (m : List (String × Paper)) (k : String) (v : Paper)
    (q : String) :
    dictLookup (dictInsert m k v) q = if k = q then some v else dictLookup m q := by
  induction m with
  | nil => simp [dictInsert, dictLookup]
  | cons kv rest ih =>
    by_cases h1 : kv.1 = k
    · simp only [dictInsert, if_pos h1, dictLookup]
      by_cases h2 : k = q
      · simp [h2]
      · simp [h2, dictLookup, h1 ▸ h2]
    · simp only [dictInsert, if_neg h1, dictLookup]
      by_cases h3 : kv.1 = q
      · have : ¬ k = q := fun hkq => h1 (hkq ▸ h3)
        simp [h3, this]
      · simp [h3, ih]

theorem mem_addSeen (s : List String) (x y : String) :
    y ∈ addSeen s x ↔ y = x ∨ y ∈ s := by
  unfold addSeen
  split_ifs with h
  · constructor
    · exact Or.inr
    · rintro (rfl | hy)
      · exact h
      · exact hy
  · simp [List.mem_cons]

theorem mem_mergePapers_seen (ps : List Paper) (seen : List String)
    (ex : List (String × Paper)) (x : String) :
    x ∈ (mergePapers ps seen ex).seen_ids
      ↔ x ∈ seen ∨ x ∈ ps.map (fun p => p.id) := by
  induction ps generalizing seen ex with
  | nil => simp [mergePapers]
  | cons p rest ih =>
    by_cases h : p.id ∈ seen
    · simp only [mergePapers, if_pos h]
      rw [ih]
      simp only [List.map_cons, List.mem_cons]
      constructor
      · rintro (hx | hx)
        · exact Or.inl hx
        · exact Or.inr (Or.inr hx)
      · rintro (hx | rfl | hx)
        · exact Or.inl hx
        · exact Or.inl h
        · exact Or.inr hx
    · simp only [mergePapers, if_neg h]
      rw [ih, mem_addSeen]
      simp only [List.map_cons, List.mem_cons]
      tauto

theorem mergePapers_all_seen (ps : List Paper) (seen : List String)
    (ex : List (String × Paper)) (h : ∀ p ∈ ps, p.id ∈ seen) :
    (mergePapers ps seen ex).seen_ids = seen
      ∧ (mergePapers ps seen ex).new_count = 0 := by
  induction ps generalizing ex with
  | nil => exact ⟨rfl, rfl⟩
  | cons p rest ih =>
    have hp : p.id ∈ seen := h p (by simp)
    simp only [mergePapers, if_pos hp]
    exact ih _ (fun q hq => h q (by simp [hq]))

theorem mergePapers_lookup_not_mem (ps : List Paper) (seen : List String)
    (ex : List (String × Paper)) (k : String)
    (hk : k ∉ ps.map (fun p => p.id)) :
    dictLookup (mergePapers ps seen ex).papers k = dictLookup ex k := by
  induction ps generalizing seen ex with
  | nil => rfl
  | cons p rest ih =>
    simp only [List.map_cons, List.mem_cons, not_or] at hk
    have hne : ¬ p.id = k := fun h => hk.1 h.symm
    by_cases h : p.id ∈ seen
    · simp only [mergePapers, if_pos h]
      rw [ih _ _ hk.2, dictLookup_dictInsert, if_neg hne]
    · simp only [mergePapers, if_neg h]
      rw [ih _ _ hk.2, dictLookup_dictInsert, if_neg hne]

theorem dictInsert_lookup_isSome (m : List (String × Paper)) (k : String)
    (v : Paper) (q : String) (h : (dictLookup m q).isSome) :
    (dictLookup (dictInsert m k v) q).isSome := by
  rw [dictLookup_dictInsert]
  split_ifs <;> simp_all

theorem mergePapers_lookup_isSome (ps : List Paper) (seen : List String)
    (ex : List (String × Paper)) (k : String) (h : (dictLookup ex k).isSome) :
    (dictLookup (mergePapers ps seen ex).papers k).isSome := by
  induction ps generalizing seen ex with
  | nil => exact h
  | cons p rest ih =>
    by_cases hp : p.id ∈ seen
    · simp only [mergePapers, if_pos hp]
      exact ih _ _ (dictInsert_lookup_isSome _ _ _ _ h)
    · simp only [mergePapers, if_neg hp]
      exact ih _ _ (dictInsert_lookup_isSome _ _ _ _ h)

theorem mergePapers_lookup_is_new (ps : List Paper) (k : String) :
    ∀ (seen : List String) (ex : List (String × Paper)),
      k ∈ ps.map (fun p => p.id) →
      ∃ p, dictLookup (mergePapers ps seen ex).papers k = some p ∧
        (p.is_new = true
          ↔ (k ∉ seen ∧ (ps.map (fun p => p.id)).count k = 1)) := by
  induction ps with
  | nil =>
    intro seen ex hk
    simp at hk
  | cons p rest ih =>
    intro seen ex hk
    by_cases hpk : p.id = k
    · by_cases hps : p.id ∈ seen
      · have hks : k ∈ seen := hpk ▸ hps
        simp only [mergePapers, if_pos hps]
        by_cases hr : k ∈ rest.map (fun p => p.id)
        · obtain ⟨q, hq, hiff⟩ :=
            ih seen (dictInsert ex p.id { p with is_new := false }) hr
          refine ⟨q, hq, ?_⟩
          constructor
          · intro h2
            exact absurd hks (hiff.mp h2).1
          · rintro ⟨h3, -⟩
            exact absurd hks h3
        · rw [mergePapers_lookup_not_mem _ _ _ _ hr, dictLookup_dictInsert,
            if_pos hpk]
          refine ⟨_, rfl, ?_⟩
          constructor
          · intro h2
            simp at h2
          · rintro ⟨h3, -⟩
            exact absurd hks h3
      · have hkns : k ∉ seen := hpk ▸ hps
        simp only [mergePapers, if_neg hps]
        by_cases hr : k ∈ rest.map (fun p => p.id)
        · obtain ⟨q, hq, hiff⟩ :=
            ih (addSeen seen p.id) (dictInsert ex p.id { p with is_new := true }) hr
          refine ⟨q, hq, ?_⟩
          have hkseen' : k ∈ addSeen seen p.id := by
            rw [mem_addSeen]
            exact Or.inl hpk.symm
          constructor
          · intro h2
            exact absurd hkseen' (hiff.mp h2).1
          · rintro ⟨h3, hcnt⟩
            exfalso
            have hc1 : 1 ≤ (rest.map (fun p => p.id)).count k :=
              List.one_le_count_iff.mpr hr
            have hc2 : ((p :: rest).map (fun p => p.id)).count k
                = (rest.map (fun p => p.id)).count k + 1 := by
              simp [List.count_cons, hpk]
            rw [hc2] at hcnt
            omega
        · rw [mergePapers_lookup_not_mem _ _ _ _ hr, dictLookup_dictInsert,
            if_pos hpk]
          refine ⟨_, rfl, ?_⟩
          have hc0 : (rest.map (fun p => p.id)).count k = 0 :=
            List.count_eq_zero.mpr hr
          simp [hkns, List.count_cons, hpk, hc0]
    · have hr : k ∈ rest.map (fun p => p.id) := by
        simp only [List.map_cons, List.mem_cons] at hk
        rcases hk with h | h
        · exact absurd h.symm hpk
        · exact h
      have hcnt_eq : ((p :: rest).map (fun p => p.id)).count k
          = (rest.map (fun p => p.id)).count k := by
        simp [List.count_cons, hpk]
      have hkp : ¬ k = p.id := fun h => hpk h.symm
      by_cases hps : p.id ∈ seen
      · simp only [mergePapers, if_pos hps]
        obtain ⟨q, hq, hiff⟩ :=
          ih seen (dictInsert ex p.id { p with is_new := false }) hr
        refine ⟨q, hq, ?_⟩
        rw [hcnt_eq]
        exact hiff
      · simp only [mergePapers, if_neg hps]
        obtain ⟨q, hq, hiff⟩ :=
          ih (addSeen seen p.id) (dictInsert ex p.id { p with is_new := true }) hr
        refine ⟨q, hq, ?_⟩
        rw [hcnt_eq, hiff, mem_addSeen]
        simp [hkp]

theorem mergePapers_lookup_last (l1 : List Paper) (p : Paper) (l2 : List Paper) :
    ∀ (seen : List String) (ex : List (String × Paper)),
      p.id ∉ l1.map (fun q => q.id) → p.id ∉ l2.map (fun q => q.id) →
      dictLookup (mergePapers (l1 ++ p :: l2) seen ex).papers p.id
        = some { p with is_new := decide (p.id ∉ seen) } := by
  induction l1 with
  | nil =>
    intro seen ex _ h2
    by_cases hps : p.id ∈ seen
    · simp only [List.nil_append, mergePapers, if_pos hps]
      rw [mergePapers_lookup_not_mem _ _ _ _ h2, dictLookup_dictInsert, if_pos rfl]
      simp [hps]
    · simp only [List.nil_append, mergePapers, if_neg hps]
      rw [mergePapers_lookup_not_mem _ _ _ _ h2, dictLookup_dictInsert, if_pos rfl]
      simp [hps]
  | cons c l1' ih =>
    intro seen ex h1 h2
    simp only [List.map_cons, List.mem_cons, not_or] at h1
    by_cases hcs : c.id ∈ seen
    · simp only [List.cons_append, mergePapers, if_pos hcs]
      exact ih seen _ h1.2 h2
    · simp only [List.cons_append, mergePapers, if_neg hcs]
      have hdec : decide (p.id ∉ addSeen seen c.id) = decide (p.id ∉ seen) :=
        decide_eq_decide.mpr (by rw [mem_addSeen]; simp [h1.1])
      have hrec := ih (addSeen seen c.id)
        (dictInsert ex c.id { c with is_new := true }) h1.2 h2
      rw [hdec] at hrec
      exact hrec

theorem mergePapers_count_all_new (ps : List Paper) :
    ∀ (seen : List String) (ex : List (String × Paper)),
      (ps.map (fun p => p.id)).Nodup → (∀ p ∈ ps, p.id ∉ seen) →
      (mergePapers ps seen ex).new_count = ps.length := by
  induction ps with
  | nil =>
    intro seen ex _ _
    rfl
  | cons p rest ih =>
    intro seen ex hnd h
    have hp : p.id ∉ seen := h p (by simp)
    simp only [List.map_cons, List.nodup_cons] at hnd
    simp only [mergePapers, if_neg hp]
    have hrest : ∀ q ∈ rest, q.id ∉ addSeen seen p.id := by
      intro q hq
      rw [mem_addSeen]
      rintro (hid | hid)
      · exact hnd.1 (hid ▸ List.mem_map_of_mem (fun p => p.id) hq)
      · exact h q (by simp [hq]) hid
    rw [ih (addSeen seen p.id) _ hnd.2 hrest]
    simp

theorem mem_foldl_addSeen (l : List (String × Paper)) :
    ∀ (acc : List String) (x : String), x ∈ acc →
      x ∈ l.foldl (fun a kv => addSeen a kv.1) acc := by
  induction l with
  | nil =>
    intro acc x h
    exact h
  | cons kv rest ih =>
    intro acc x h
    exact ih _ _ ((mem_addSeen _ _ _).mpr (Or.inr h))

theorem collectPapers_error_append (f : Fetcher) (c : CategoryConfig)
    (l2 : List CategoryConfig) (e : String) :
    ∀ l1 : List CategoryConfig,
      (∀ c' ∈ l1, c'.enabled = true →
        ∃ ps, f c'.category c'.max_results = Except.ok ps) →
      c.enabled = true → f c.category c.max_results = Except.error e →
      collectPapers f (l1 ++ c :: l2) = Except.error e := by
  intro l1
  induction l1 with
  | nil =>
    intro _ hc he
    simp [collectPapers, hc, he]
  | cons c' l1' ih =>
    intro h1 hc he
    have hrec := ih (fun d hd hde => h1 d (by simp [hd]) hde) hc he
    by_cases hen : c'.enabled = true
    · obtain ⟨ps, hps⟩ := h1 c' (by simp) hen
      simp [collectPapers, hen, hps, hrec]
    · simp [collectPapers, hen, hrec]

theorem fetchCalls_error_append (f : Fetcher) (c : CategoryConfig)
    (l2 : List CategoryConfig) (e : String) :
    ∀ l1 : List CategoryConfig,
      (∀ c' ∈ l1, c'.enabled = true →
        ∃ ps, f c'.category c'.max_results = Except.ok ps) →
      c.enabled = true → f c.category c.max_results = Except.error e →
      fetchCalls f (l1 ++ c :: l2)
        = (l1.filter (fun x => x.enabled)).map (fun x => x.category)
            ++ [c.category] := by
  intro l1
  induction l1 with
  | nil =>
    intro _ hc he
    simp [fetchCalls, hc, he]
  | cons c' l1' ih =>
    intro h1 hc he
    have hrec := ih (fun d hd hde => h1 d (by simp [hd]) hde) hc he
    by_cases hen : c'.enabled = true
    · obtain ⟨ps, hps⟩ := h1 c' (by simp) hen
      simp [fetchCalls, hen, hps, hrec, List.filter_cons]
    · simp [fetchCalls, hen, hrec, List.filter_cons]

theorem periodicFetchBody_ok (f : Fetcher) (now : Nat) (s : Storage)
    (ps : List Paper) (hok : collectPapers f (loadConfig s) = Except.ok ps) :
    periodicFetchBody f now s
      = { s with
          papers := (mergePapers ps s.seen_ids s.papers).papers,
          seen_ids := (mergePapers ps s.seen_ids s.papers).seen_ids,
          status := some (successStatus now ps.length
            (mergePapers ps s.seen_ids s.papers).new_count) } := by
  simp [periodicFetchBody, hok]

theorem periodicFetchBody_error (f : Fetcher) (now : Nat) (s : Storage)
    (e : String) (he : collectPapers f (loadConfig s) = Except.error e) :
    periodicFetchBody f now s = { s with status := some (errorStatus now e) } := by
  simp [periodicFetchBody, he]

theorem fetchPapersNow_ok (f : Fetcher) (now : Nat) (s : Storage)
    (ps : List Paper) (hok : collectPapers f (loadConfig s) = Except.ok ps) :
    fetchPapersNow f now s
      = ({ s with
           papers := (mergePapers ps s.seen_ids s.papers).papers,
           seen_ids := (mergePapers ps s.seen_ids s.papers).seen_ids,
           status := some (successStatus now ps.length
             (mergePapers ps s.seen_ids s.papers).new_count) },
         Except.ok ⟨"success", ps.length,
           (mergePapers ps s.seen_ids s.papers).new_count⟩) := by
  simp [fetchPapersNow, hok]

theorem fetchPapersNow_error (f : Fetcher) (now : Nat) (s : Storage)
    (e : String) (he : collectPapers f (loadConfig s) = Except.error e) :
    fetchPapersNow f now s = (s, Except.error e) := by
  simp [fetchPapersNow, he]

/-! Concrete records, fetchers and stores used in counterexamples and
witnesses. -/

/-- Concrete paper for use in counterexamples and witnesses. -/
def samplePaper (i t : String) (u : Nat) : Paper :=
  { id := i, title := t, abstract := "a", authors := ["x"],
    categories := ["cs.CV", "cs.LG"], published := 0, updated := u,
    arxiv_url := "https://arxiv.org/abs/" ++ i,
    pdf_url := "https://arxiv.org/pdf/" ++ i ++ ".pdf",
    fetched_at := 0, is_new := true }

/-- Paper listed in both `cs.CV` and `cs.LG`, so a cycle that fetches both
categories sees its identifier twice in the flat candidate list. -/
def dupPaper : Paper := samplePaper "2401.00001" "Dup" 5

/-- Fetcher that returns `dupPaper` for every category. -/
def dupFetcher : Fetcher := fun _ _ => Except.ok [dupPaper]

/-- Store with two enabled categories and nothing previously seen. -/
def dupStorage : Storage :=
  ⟨[], [], some [⟨"cs.CV", true, 2⟩, ⟨"cs.LG", true, 2⟩], none⟩

/-- Fetcher that raises for category `catA` and succeeds for every other
category. -/
def failFetcher : Fetcher := fun c _ =>
  if c = "catA" then Except.error "boom"
  else Except.ok [samplePaper "2403.22222" "B" 9]

/-- Store whose first enabled category is the failing `catA` and whose second
enabled category `catB` would succeed. -/
def failStorage : Storage :=
  ⟨[], [], some [⟨"catA", true, 2⟩, ⟨"catB", true, 2⟩], none⟩

/-- Single-category fetcher returning one fresh paper, for witnesses. -/
def wFetcher : Fetcher := fun c _ =>
  if c = "cs.CV" then Except.ok [samplePaper "2402.11111" "W" 7]
  else Except.ok []

/-- Single-category store with empty datasets, for witnesses. -/
def wStorage : Storage := ⟨[], [], some [⟨"cs.CV", true, 50⟩], none⟩

/-! Claim theorems. -/

/-- C1, counterexample: the identifier of `dupPaper` is absent from the
SeenSet immediately before the cycle's merge step begins, yet because the
candidate list of the cycle contains that identifier twice (once per enabled
category), the stored record ends the cycle with `is_new = false` — the claim's
biconditional fails at this input. -/
theorem C1_counterexample :
    "2401.00001" ∉ dupStorage.seen_ids ∧
    collectPapers dupFetcher (loadConfig dupStorage)
      = Except.ok [dupPaper, dupPaper] ∧
    dictLookup (periodicFetchBody dupFetcher 0 dupStorage).papers "2401.00001"
      = some { dupPaper with is_new := false } := by
  refine ⟨by simp [dupStorage], rfl, rfl⟩

/-- C1 (amended): after a cycle whose candidate list is `ps`, the stored
record under identifier `k` has `is_new = true` exactly when `k` was absent
from the SeenSet as it stood before the merge step began AND `k` occurs
exactly once among the cycle's candidates; with duplicate occurrences only the
first is flagged new, and the stored record (the last occurrence) carries
`is_new = false`. -/
theorem C1_new_flag_amended (f : Fetcher) (now : Nat) (s : Storage)
    (ps : List Paper) (k : String)
    (hok : collectPapers f (loadConfig s) = Except.ok ps)
    (hk : k ∈ ps.map (fun p => p.id)) :
    ∃ p, dictLookup (periodicFetchBody f now s).papers k = some p ∧
      (p.is_new = true
        ↔ (k ∉ s.seen_ids ∧ (ps.map (fun p => p.id)).count k = 1)) := by
  rw [periodicFetchBody_ok f now s ps hok]
  exact mergePapers_lookup_is_new ps k s.seen_ids s.papers hk

/-- Witness for `C1_new_flag_amended` at a concrete single-occurrence cycle. -/
theorem C1_new_flag_witness :
    ∃ p, dictLookup (periodicFetchBody wFetcher 0 wStorage).papers
        "2402.11111" = some p ∧
      (p.is_new = true
        ↔ ("2402.11111" ∉ wStorage.seen_ids ∧
           ([samplePaper "2402.11111" "W" 7].map (fun p => p.id)).count
             "2402.11111" = 1)) :=
  C1_new_flag_amended wFetcher 0 wStorage [samplePaper "2402.11111" "W" 7]
    "2402.11111" rfl (by simp [samplePaper])

/-- C2, counterexample: `catB`'s fetch succeeds on its own, but because
`catA`'s fetch raises first, the cycle invokes the fetcher only for `catA`,
merges nothing (the store keeps no record from `catB`) and records an error —
one category's failure aborts the others. -/
theorem C2_counterexample :
    failFetcher "catB" 2 = Except.ok [samplePaper "2403.22222" "B" 9] ∧
    fetchCalls failFetcher (loadConfig failStorage) = ["catA"] ∧
    (periodicFetchBody failFetcher 0 failStorage).papers = [] ∧
    (periodicFetchBody failFetcher 0 failStorage).status
      = some (errorStatus 0 "boom") := by
  refine ⟨rfl, rfl, rfl, rfl⟩

/-- C2 (amended): when the fetcher fails for an enabled category, the whole
cycle aborts: the fetcher is invoked for the enabled categories up to and
including the failing one and for none after it, no records are merged and the
SeenSet is unchanged; the scheduled path persists an error status and the
manual path raises. -/
theorem C2_fetch_failure_amended (f : Fetcher) (now : Nat) (s : Storage)
    (l1 : List CategoryConfig) (c : CategoryConfig) (l2 : List CategoryConfig)
    (e : String) (hcfg : loadConfig s = l1 ++ c :: l2)
    (h1 : ∀ c' ∈ l1, c'.enabled = true →
      ∃ ps, f c'.category c'.max_results = Except.ok ps)
    (hc : c.enabled = true)
    (he : f c.category c.max_results = Except.error e) :
    fetchCalls f (loadConfig s)
      = (l1.filter (fun x => x.enabled)).map (fun x => x.category)
          ++ [c.category] ∧
    (periodicFetchBody f now s).papers = s.papers ∧
    (periodicFetchBody f now s).seen_ids = s.seen_ids ∧
    (periodicFetchBody f now s).status = some (errorStatus now e) ∧
    fetchPapersNow f now s = (s, Except.error e) := by
  have hcol : collectPapers f (loadConfig s) = Except.error e := by
    rw [hcfg]
    exact collectPapers_error_append f c l2 e l1 h1 hc he
  refine ⟨?_, ?_, ?_, ?_, ?_⟩
  · rw [hcfg]
    exact fetchCalls_error_append f c l2 e l1 h1 hc he
  · rw [periodicFetchBody_error f now s e hcol]
  · rw [periodicFetchBody_error f now s e hcol]
  · rw [periodicFetchBody_error f now s e hcol]
  · exact fetchPapersNow_error f now s e hcol

/-- Witness for `C2_fetch_failure_amended` at the concrete failing store. -/
theorem C2_fetch_failure_witness :
    fetchCalls failFetcher (loadConfig failStorage)
      = (List.filter (fun x => x.enabled)
            ([] : List CategoryConfig)).map (fun x => x.category)
          ++ ["catA"] ∧
    (periodicFetchBody failFetcher 3 failStorage).papers = failStorage.papers ∧
    (periodicFetchBody failFetcher 3 failStorage).seen_ids
      = failStorage.seen_ids ∧
    (periodicFetchBody failFetcher 3 failStorage).status
      = some (errorStatus 3 "boom") ∧
    fetchPapersNow failFetcher 3 failStorage
      = (failStorage, Except.error "boom") :=
  C2_fetch_failure_amended failFetcher 3 failStorage []
    ⟨"catA", true, 2⟩ [⟨"catB", true, 2⟩] "boom" rfl
    (fun c' hc' => absurd hc' (List.not_mem_nil c')) rfl rfl

/-- C3, counterexample: on a failing cycle the manual entry point raises the
error to its caller and persists nothing — the stored status is still absent
afterwards, contradicting the claim that both entry points persist an error
`FetchStatus` and terminate without raising. -/
theorem C3_counterexample :
    failStorage.status = none ∧
    (fetchPapersNow failFetcher 0 failStorage).1.status = none ∧
    (fetchPapersNow failFetcher 0 failStorage).2 = Except.error "boom" := by
  refine ⟨rfl, rfl, rfl⟩

/-- C3 (amended): on any unhandled failure, the scheduled entry point persists
a `FetchStatus` with status `error` and the failure's message and terminates
without raising, while the manual entry point leaves the store untouched and
re-raises the failure (as an HTTP error carrying the message) to its caller. -/
theorem C3_error_path_amended (f : Fetcher) (now : Nat) (s : Storage)
    (e : String) (he : collectPapers f (loadConfig s) = Except.error e) :
    periodicFetchBody f now s = { s with status := some (errorStatus now e) } ∧
    fetchPapersNow f now s = (s, Except.error e) :=
  ⟨periodicFetchBody_error f now s e he, fetchPapersNow_error f now s e he⟩

/-- Witness for `C3_error_path_amended` at the concrete failing store. -/
theorem C3_error_path_witness :
    periodicFetchBody failFetcher 5 failStorage
      = { failStorage with status := some (errorStatus 5 "boom") } ∧
    fetchPapersNow failFetcher 5 failStorage
      = (failStorage, Except.error "boom") :=
  C3_error_path_amended failFetcher 5 failStorage "boom" rfl

/-- C4: if a cycle succeeds and a second cycle then runs with the fetcher
producing candidates with exactly the same identifiers, the second cycle
leaves the SeenSet unchanged and reports `new_records = 0` both in its success
`FetchStatus` and in the manual trigger's response. -/
theorem C4_idempotence (f1 f2 : Fetcher) (n1 n2 : Nat) (s : Storage)
    (ps1 ps2 : List Paper)
    (h1 : collectPapers f1 (loadConfig s) = Except.ok ps1)
    (h2 : collectPapers f2 (loadConfig (periodicFetchBody f1 n1 s))
        = Except.ok ps2)
    (hsame : ps2.map (fun p => p.id) = ps1.map (fun p => p.id)) :
    (periodicFetchBody f2 n2 (periodicFetchBody f1 n1 s)).seen_ids
        = (periodicFetchBody f1 n1 s).seen_ids ∧
    (periodicFetchBody f2 n2 (periodicFetchBody f1 n1 s)).status
        = some (successStatus n2 ps2.length 0) ∧
    (fetchPapersNow f2 n2 (periodicFetchBody f1 n1 s)).2
        = Except.ok ⟨"success", ps2.length, 0⟩ ∧
    (fetchPapersNow f2 n2 (periodicFetchBody f1 n1 s)).1.seen_ids
        = (periodicFetchBody f1 n1 s).seen_ids := by
  set s1 := periodicFetchBody f1 n1 s with hs1
  have hs1seen : s1.seen_ids = (mergePapers ps1 s.seen_ids s.papers).seen_ids := by
    rw [hs1, periodicFetchBody_ok f1 n1 s ps1 h1]
  have hseen1 : ∀ p ∈ ps2, p.id ∈ s1.seen_ids := by
    intro p hp
    rw [hs1seen, mem_mergePapers_seen]
    right
    rw [← hsame]
    exact List.mem_map_of_mem _ hp
  obtain ⟨hseq, hcnt⟩ := mergePapers_all_seen ps2 s1.seen_ids s1.papers hseen1
  refine ⟨?_, ?_, ?_, ?_⟩
  · rw [periodicFetchBody_ok f2 n2 s1 ps2 h2]
    exact hseq
  · rw [periodicFetchBody_ok f2 n2 s1 ps2 h2]
    simp [hcnt]
  · rw [fetchPapersNow_ok f2 n2 s1 ps2 h2]
    simp [hcnt]
  · rw [fetchPapersNow_ok f2 n2 s1 ps2 h2]
    simp [hseq]

/-- Witness for `C4_idempotence`: the same single-paper fetch run twice. -/
theorem C4_idempotence_witness :
    (periodicFetchBody wFetcher 1 (periodicFetchBody wFetcher 0 wStorage)).seen_ids
        = (periodicFetchBody wFetcher 0 wStorage).seen_ids ∧
    (periodicFetchBody wFetcher 1 (periodicFetchBody wFetcher 0 wStorage)).status
        = some (successStatus 1 ([samplePaper "2402.11111" "W" 7]).length 0) ∧
    (fetchPapersNow wFetcher 1 (periodicFetchBody wFetcher 0 wStorage)).2
        = Except.ok ⟨"success", ([samplePaper "2402.11111" "W" 7]).length, 0⟩ ∧
    (fetchPapersNow wFetcher 1 (periodicFetchBody wFetcher 0 wStorage)).1.seen_ids
        = (periodicFetchBody wFetcher 0 wStorage).seen_ids :=
  C4_idempotence wFetcher wFetcher 0 1 wStorage
    [samplePaper "2402.11111" "W" 7] [samplePaper "2402.11111" "W" 7]
    rfl rfl rfl

/-- C5: `load_config` on a store where no configuration has ever been saved
returns exactly the three default categories `cs.CV`, `cs.LG`, `cs.AI` in that
order, each enabled with `max_results = 50`. -/
theorem C5_default_config (papers : List (String × Paper)) (seen : List String)
    (st : Option FetchStatus) :
    loadConfig ⟨papers, seen, none, st⟩
      = [{ category := "cs.CV", enabled := true, max_results := 50 },
         { category := "cs.LG", enabled := true, max_results := 50 },
         { category := "cs.AI", enabled := true, max_results := 50 }] := rfl

/-- C6: after clear-all the stored record mapping is empty (so listing records
returns the empty sequence), the SeenSet is empty, the persisted status is
`cleared`, and a subsequent merge of any candidates with pairwise-distinct
identifiers counts every one of them as new again. -/
theorem C6_clear_all (s : Storage) (ps : List Paper)
    (hnd : (ps.map (fun p => p.id)).Nodup) :
    (clearAllData s).papers = [] ∧
    getPapers (clearAllData s) = [] ∧
    (clearAllData s).seen_ids = [] ∧
    (clearAllData s).status = some ⟨none, 0, 0, "cleared", "All data cleared"⟩ ∧
    (mergePapers ps (clearAllData s).seen_ids (clearAllData s).papers).new_count
      = ps.length := by
  refine ⟨rfl, ?_, rfl, rfl, ?_⟩
  · simp [getPapers, clearAllData, List.mergeSort_nil]
  · exact mergePapers_count_all_new ps [] [] hnd (by simp)

/-- Witness for `C6_clear_all` at a concrete store and candidate list. -/
theorem C6_clear_all_witness :
    (clearAllData dupStorage).papers = [] ∧
    getPapers (clearAllData dupStorage) = [] ∧
    (clearAllData dupStorage).seen_ids = [] ∧
    (clearAllData dupStorage).status
      = some ⟨none, 0, 0, "cleared", "All data cleared"⟩ ∧
    (mergePapers [dupPaper] (clearAllData dupStorage).seen_ids
        (clearAllData dupStorage).papers).new_count = [dupPaper].length :=
  C6_clear_all dupStorage [dupPaper] (by simp)

/-- C7: when identifier `I` is fetched in one cycle and fetched again (as the
unique candidate with that identifier) in a later cycle, the stored record
after the later cycle is the later fetched record in full — in particular it
carries the later title — with `is_new` recomputed from SeenSet membership
alone, hence `false`, regardless of whether any field changed. -/
theorem C7_overwrite (f1 f2 : Fetcher) (n1 n2 : Nat) (s : Storage)
    (ps1 : List Paper) (p1 : Paper) (l1 l2 : List Paper) (p2 : Paper)
    (h1 : collectPapers f1 (loadConfig s) = Except.ok ps1)
    (hp1 : p1 ∈ ps1)
    (h2 : collectPapers f2 (loadConfig (periodicFetchBody f1 n1 s))
        = Except.ok (l1 ++ p2 :: l2))
    (hid : p2.id = p1.id)
    (hl1 : p2.id ∉ l1.map (fun q => q.id))
    (hl2 : p2.id ∉ l2.map (fun q => q.id)) :
    dictLookup (periodicFetchBody f2 n2 (periodicFetchBody f1 n1 s)).papers
        p2.id
      = some { p2 with is_new := false } := by
  set s1 := periodicFetchBody f1 n1 s with hs1
  have hs1seen : s1.seen_ids = (mergePapers ps1 s.seen_ids s.papers).seen_ids := by
    rw [hs1, periodicFetchBody_ok f1 n1 s ps1 h1]
  have hseen : p2.id ∈ s1.seen_ids := by
    rw [hs1seen, mem_mergePapers_seen, hid]
    right
    exact List.mem_map_of_mem _ hp1
  rw [periodicFetchBody_ok f2 n2 s1 _ h2]
  have hlast := mergePapers_lookup_last l1 p2 l2 s1.seen_ids s1.papers hl1 hl2
  rw [show decide (p2.id ∉ s1.seen_ids) = false from by simp [hseen]] at hlast
  exact hlast

/-- Witness for `C7_overwrite`: the same identifier fetched twice with a
different title the second time. -/
theorem C7_overwrite_witness :
    dictLookup
        (periodicFetchBody (fun c _ =>
            if c = "cs.CV" then Except.ok [samplePaper "2402.11111" "W2" 8]
            else Except.ok []) 1
          (periodicFetchBody wFetcher 0 wStorage)).papers
        (samplePaper "2402.11111" "W2" 8).id
      = some { samplePaper "2402.11111" "W2" 8 with is_new := false } :=
  C7_overwrite wFetcher
    (fun c _ =>
      if c = "cs.CV" then Except.ok [samplePaper "2402.11111" "W2" 8]
      else Except.ok []) 0 1 wStorage
    [samplePaper "2402.11111" "W" 7] (samplePaper "2402.11111" "W" 7)
    [] [] (samplePaper "2402.11111" "W2" 8)
    rfl (by simp) rfl rfl (by simp) (by simp)

/-- C8: listing records returns a permutation of the stored records, sorted so
that the newest `updated_at` comes first (descending `updated`). -/
theorem C8_sorted_papers (s : Storage) :
    List.Sorted (fun p q : Paper => q.updated ≤ p.updated) (getPapers s) ∧
    (getPapers s).Perm (s.papers.map Prod.snd) := by
  constructor
  · have h := @List.sorted_mergeSort Paper
      (fun p q => decide (q.updated ≤ p.updated))
      (fun a b c h1 h2 => by
        simp only [decide_eq_true_eq] at h1 h2 ⊢
        exact le_trans h2 h1)
      (fun a b => by
        simp only [Bool.or_eq_true, decide_eq_true_eq]
        exact Nat.le_total b.updated a.updated)
      (s.papers.map Prod.snd)
    exact h.imp fun hab => of_decide_eq_true hab
  · exact List.mergeSort_perm _ _

/-- C9: the SeenSet only grows outside clear-all: a scheduled cycle, a manual
cycle (whatever its outcome), mark-all-seen and replace-config each carry
every previously seen identifier over into the resulting SeenSet. -/
theorem C9_seen_monotone (f : Fetcher) (now : Nat) (s : Storage)
    (c : List CategoryConfig) (x : String) (hx : x ∈ s.seen_ids) :
    x ∈ (periodicFetchBody f now s).seen_ids ∧
    x ∈ (fetchPapersNow f now s).1.seen_ids ∧
    x ∈ (markAllSeen s).seen_ids ∧
    x ∈ (updateConfig s c).seen_ids := by
  refine ⟨?_, ?_, ?_, ?_⟩
  · cases hcol : collectPapers f (loadConfig s) with
    | ok ps =>
      rw [periodicFetchBody_ok f now s ps hcol]
      exact (mem_mergePapers_seen ps s.seen_ids s.papers x).mpr (Or.inl hx)
    | error e =>
      rw [periodicFetchBody_error f now s e hcol]
      exact hx
  · cases hcol : collectPapers f (loadConfig s) with
    | ok ps =>
      rw [fetchPapersNow_ok f now s ps hcol]
      exact (mem_mergePapers_seen ps s.seen_ids s.papers x).mpr (Or.inl hx)
    | error e =>
      rw [fetchPapersNow_error f now s e hcol]
      exact hx
  · exact mem_foldl_addSeen s.papers s.seen_ids x hx
  · exact hx

/-- Witness for `C9_seen_monotone` at a store that has already seen an id. -/
theorem C9_seen_monotone_witness :
    "2402.11111" ∈ (periodicFetchBody wFetcher 0
        ⟨[], ["2402.11111"], some [⟨"cs.CV", true, 50⟩], none⟩).seen_ids ∧
    "2402.11111" ∈ (fetchPapersNow wFetcher 0
        ⟨[], ["2402.11111"], some [⟨"cs.CV", true, 50⟩], none⟩).1.seen_ids ∧
    "2402.11111" ∈ (markAllSeen
        ⟨[], ["2402.11111"], some [⟨"cs.CV", true, 50⟩], none⟩).seen_ids ∧
    "2402.11111" ∈ (updateConfig
        ⟨[], ["2402.11111"], some [⟨"cs.CV", true, 50⟩], none⟩ []).seen_ids :=
  C9_seen_monotone wFetcher 0
    ⟨[], ["2402.11111"], some [⟨"cs.CV", true, 50⟩], none⟩ [] "2402.11111"
    (by simp)

/-- C10: a cycle that completes its merge step never removes stored records:
every identifier stored before the cycle is still stored afterwards, and the
entry of any identifier that is not among the cycle's candidates is unchanged
in all fields. -/
theorem C10_frame (f : Fetcher) (now : Nat) (s : Storage) (ps : List Paper)
    (k : String) (hok : collectPapers f (loadConfig s) = Except.ok ps) :
    ((dictLookup s.papers k).isSome
        → (dictLookup (periodicFetchBody f now s).papers k).isSome) ∧
    (k ∉ ps.map (fun p => p.id)
        → dictLookup (periodicFetchBody f now s).papers k
            = dictLookup s.papers k) := by
  rw [periodicFetchBody_ok f now s ps hok]
  constructor
  · intro h
    exact mergePapers_lookup_isSome ps s.seen_ids s.papers k h
  · intro h
    exact mergePapers_lookup_not_mem ps s.seen_ids s.papers k h

/-- Witness for `C10_frame`: a store holding an old record, fetching a
different one. -/
theorem C10_frame_witness :
    ((dictLookup [("old", samplePaper "old" "Old" 1)] "old").isSome
        → (dictLookup (periodicFetchBody wFetcher 0
            ⟨[("old", samplePaper "old" "Old" 1)], [],
             some [⟨"cs.CV", true, 50⟩], none⟩).papers "old").isSome) ∧
    ("old" ∉ ([samplePaper "2402.11111" "W" 7]).map (fun p => p.id)
        → dictLookup (periodicFetchBody wFetcher 0
            ⟨[("old", samplePaper "old" "Old" 1)], [],
             some [⟨"cs.CV", true, 50⟩], none⟩).papers "old"
            = dictLookup [("old", samplePaper "old" "Old" 1)] "old") :=
  C10_frame wFetcher 0
    ⟨[("old", samplePaper "old" "Old" 1)], [], some [⟨"cs.CV", true, 50⟩], none⟩
    [samplePaper "2402.11111" "W" 7] "old" rfl

end ArxivMonitor
